import Mathlib

/-!
Shallow embedding of the training control loop, loss scheduling and
evaluation bookkeeping of `src/main.py` (class `TrainVQG`), together with
theorems settling the specification claims about it.

Conventions: Python floats are modelled as real numbers; Python exceptions
(`ZeroDivisionError`, `ValueError`, `IndexError`) are modelled by `Option`
or `Except` results; Python dicts used as accumulators are modelled as
association lists preserving insertion order.
-/

namespace VQG

/-! ## Training-step state machine (src/main.py lines 28-31, 66-78, 128-129)

The mutable trainer state that `training_step` touches: the global
iteration counter `self.iter`, the mode flag `self.latent_transformer`
(mirrored onto the model), and, as instrumentation for "a fresh optimizer
instance is constructed", a counter incremented each time the code calls
`self.configure_optimizers()` (which builds a new `torch.optim.Adam`). -/

structure TrainState where
  iter : ℕ
  latent_transformer : Bool
  optimizer_resets : ℕ
deriving Repr, DecidableEq

/-- Embedding of `TrainVQG.training_step` (lines 66-78) restricted to its
effect on the trainer state: if `num_warmup_steps < self.iter` it sets the
latent flag and calls `configure_optimizers()` (counted as one fresh
optimizer construction), then the iteration counter is incremented.
`num_warmup_steps` is a CLI float (argparse `type=float`), modelled as ℚ. -/
def training_step (num_warmup_steps : ℚ) (s : TrainState) : TrainState :=
  let s :=
    if num_warmup_steps < (s.iter : ℚ) then
      { s with latent_transformer := true, optimizer_resets := s.optimizer_resets + 1 }
    else s
  { s with iter := s.iter + 1 }

/-- Running `n` consecutive training steps from state `s`. -/
def run_steps (num_warmup_steps : ℚ) (s : TrainState) : ℕ → TrainState
  | 0 => s
  | n + 1 => training_step num_warmup_steps (run_steps num_warmup_steps s n)

/-- The initial trainer state (`self.iter = 0`,
`self.latent_transformer = False`, no optimizer constructed yet beyond the
framework's own setup). -/
def initState : TrainState := ⟨0, false, 0⟩

/-! ## Loss scheduling (src/main.py lines 47-64) -/

/-- Python float modulo `x % y` for positive or negative nonzero `y`:
`x - y * floor (x / y)`. -/
noncomputable def pymod (x y : ℝ) : ℝ := x - y * (⌊x / y⌋ : ℝ)

/-- Embedding of `TrainVQG.calculate_losses` (lines 47-64).
`loss` is the reconstruction loss, `kld` the optional KL term, `iter` the
current value of `self.iter`, `T` the CLI integer
`args.total_training_steps`, and `r` the annealing fraction (the Python
default argument `r=0.5`).  In the latent branch the code computes
`cycle_num = T/4`, `mod = iter % cycle_num`, `temp = mod/cycle_num`, and
`beta = 1/(1+exp(-temp))` when `temp <= r`, else `beta = 1`.  When
`cycle_num` is zero the Python `%` raises `ZeroDivisionError`, modelled as
`none`. -/
noncomputable def calculate_losses (loss : ℝ) (kld : Option ℝ) (iter : ℕ) (T : ℤ)
    (r : ℝ) : Option (ℝ × ℝ × ℝ) :=
  match kld with
  | none => some (loss, loss, 0)
  | some k =>
    let cycle_num : ℝ := (T : ℝ) / 4
    if cycle_num = 0 then none
    else
      let m := pymod (iter : ℝ) cycle_num
      let temp := m / cycle_num
      let beta : ℝ := if temp ≤ r then 1 / (1 + Real.exp (-temp)) else 1
      some (loss + beta * k, loss, k)

/-- Embedding of the argparse declaration of `--total_training_steps`
(lines 230-231): the option is declared with `type=int` and no further
constraint, so every integer value is accepted by the CLI layer. -/
def total_training_steps_accepted (_n : ℤ) : Bool := true

/-! ## Validation-loss accumulator (src/main.py lines 35, 86-88, 102-104)

The dict `self.val_losses` with its three fixed keys `"total loss"`,
`"rec loss"`, `"kl loss"`. -/

structure ValLosses where
  total_loss : List ℝ
  rec_loss : List ℝ
  kl_loss : List ℝ

/-- Embedding of the accumulator updates of `TrainVQG.validation_step`
(lines 86-88): the three computed loss components are appended to the
corresponding lists of `self.val_losses`. -/
def validation_step_losses (v : ValLosses) (t r k : ℝ) : ValLosses :=
  { total_loss := v.total_loss ++ [t]
    rec_loss := v.rec_loss ++ [r]
    kl_loss := v.kl_loss ++ [k] }

/-- Embedding of the accumulator reset of `TrainVQG.validation_epoch_end`
(lines 102-104): the loop prints the mean of each entry of
`self.val_losses` and then assigns `self.val_losses[k] = []`, so every key
ends up mapped to the empty list. -/
def validation_epoch_end_losses (_v : ValLosses) : ValLosses :=
  { total_loss := [], rec_loss := [], kl_loss := [] }

/-! ## Test-score accumulator (src/main.py lines 32, 115-119, 123-126)

`self.test_scores` is a Python dict from metric name to a list of scores;
it is modelled as an association list in insertion order.  Per-batch scores
are rationals (the metric values the code handles are floats). -/

/-- Lookup in a Python dict modelled as an association list: `d[k]` when
present. -/
def dict_get (k : String) : List (String × List ℚ) → Option (List ℚ)
  | [] => none
  | p :: rest => if p.1 = k then some p.2 else dict_get k rest

/-- Assignment `d[k] = v` in a Python dict modelled as an association
list: overwrite in place when the key exists, otherwise insert at the end
(Python dicts preserve insertion order). -/
def dict_set (k : String) (v : List ℚ) : List (String × List ℚ) → List (String × List ℚ)
  | [] => [(k, v)]
  | p :: rest => if p.1 = k then (k, v) :: rest else p :: dict_set k v rest

/-- Embedding of the accumulation loop of `TrainVQG.test_step`
(lines 115-119): for each `(k, v)` in the step's scores, if `k` is not yet
a key of `self.test_scores` the code only creates `self.test_scores[k] = []`
without storing `v`; otherwise it appends `v`. -/
def test_step_update (acc : List (String × List ℚ)) (scores : List (String × ℚ)) :
    List (String × List ℚ) :=
  scores.foldl
    (fun a kv =>
      match dict_get kv.1 a with
      | none => dict_set kv.1 [] a
      | some l => dict_set kv.1 (l ++ [kv.2]) a)
    acc

/-- Running `test_step` score accumulation over a sequence of test steps
that each produce the single metric key `k` with the given per-step value,
starting from the empty `self.test_scores` dict of `__init__` (line 32). -/
def test_steps_run (k : String) (vs : List ℚ) : List (String × List ℚ) :=
  vs.foldl (fun acc v => test_step_update acc [(k, v)]) []

/-! ## Token filtering and the decode loop (src/main.py lines 131-157, 189-201) -/

/-- Helper for `pySplit`: walks the character list, gathering the current
word in reverse in `acc`, emitting a word at each whitespace run. -/
def pySplitAux : List Char → List Char → List String
  | [], acc => if acc.isEmpty then [] else [String.mk acc.reverse]
  | c :: cs, acc =>
    if c.isWhitespace then
      if acc.isEmpty then pySplitAux cs []
      else String.mk acc.reverse :: pySplitAux cs []
    else pySplitAux cs (c :: acc)

/-- Python `str.split()` with no arguments: split on runs of whitespace,
discarding empty fragments. -/
def pySplit (s : String) : List String := pySplitAux s.toList []

/-- Embedding of `TrainVQG.filter_special_tokens` (lines 189-201): split
the decoded string into tokens; if the tokenizer's separator token occurs,
truncate at its first occurrence (dropping it and everything after); then
drop every token that is one of the tokenizer's special tokens; rejoin
with single spaces. -/
def filter_special_tokens (all_special_tokens : List String) ( sep_token : String)
    (s : String) : String :=
  let l := pySplit s
  let l := if sep_token ∈ l then l.takeWhile (fun t => t ≠ sep_token) else l
  String.intercalate " " (l.filter (fun t => t ∉ all_special_tokens))

/-- Embedding of the per-example loop of `TrainVQG.decode_and_print`
(lines 143-157).  It walks `decoded_sentences` with index `i`, applies
`filter_special_tokens` to the decoded keyword input `inputs[i]`, to the
generated sentence, and to the decoded ground-truth question
`questions[i]`, appends to `gts` and `preds`, and for `i < print_lim`
prints `curr_input.split()[0]` as the category — an `IndexError` (modelled
as `Except.error`) when the filtered input is empty, or when `inputs` or
`questions` is shorter than `decoded_sentences`.  The result collects
`(preds, gts, printed_inputs)` where `printed_inputs` are the filtered
inputs of the printed examples. -/
def decode_loop_aux (st : List String) ( sep : String) (print_lim : ℕ)
    (qs ins : List String) :
    ℕ → List String × List String × List String → List String →
    Except String (List String × List String × List String)
  | _, acc, [] => Except.ok acc
  | i, acc, sentence :: rest =>
    match ins[i]?, qs[i]? with
    | some input_i, some q_i =>
      let curr_input := filter_special_tokens st sep input_i
      let generated_q := filter_special_tokens st sep sentence
      let real_q := filter_special_tokens st sep q_i
      let acc1 := (acc.1 ++ [generated_q], acc.2.1 ++ [real_q], acc.2.2)
      if i < print_lim then
        match pySplit curr_input with
        | [] => Except.error "IndexError: list index out of range"
        | _ :: _ =>
          decode_loop_aux st sep print_lim qs ins (i + 1)
            (acc1.1, acc1.2.1, acc1.2.2 ++ [curr_input]) rest
      else
        decode_loop_aux st sep print_lim qs ins (i + 1) acc1 rest
    | _, _ => Except.error "IndexError: list index out of range"

/-- The decode loop of `decode_and_print` run from the start: empty
`preds` and `gts`, index `0`. -/
def decode_loop (st : List String) ( sep : String) (print_lim : ℕ)
    (qs ins sents : List String) :
    Except String (List String × List String × List String) :=
  decode_loop_aux st sep print_lim qs ins 0 ([], [], []) sents

/-! ## Best-score query (src/main.py lines 36-38, 168-184) -/

/-- Python `max(l, key=itemgetter(1))`: `none` on an empty list (Python
raises `ValueError`), otherwise the first element whose second component
is maximal (later elements replace the current best only when strictly
greater). -/
def pyMaxBySnd : List (ℕ × ℚ) → Option (ℕ × ℚ)
  | [] => none
  | x :: xs => some (xs.foldl (fun b a => if b.2 < a.2 then a else b) x)

/-- Embedding of the best-score query of `TrainVQG.decode_and_print`
(lines 178, 181-182): `max_bleu = max(self.bleus, key=itemgetter(1))`
over the recorded `(iteration, value)` history, which raises `ValueError`
(modelled as `Except.error`, propagated uncaught to the caller) when the
history is empty. -/
def best_bleu_query (bleus : List (ℕ × ℚ)) : Except String (ℕ × ℚ) :=
  match pyMaxBySnd bleus with
  | none => Except.error "ValueError: max() arg is an empty sequence"
  | some p => Except.ok p

/-! ## Theorems -/

/-- Helper: in the latent branch, when the cycle length is nonzero,
`calculate_losses` returns exactly the annealed triple. -/
lemma calculate_losses_some (loss k : ℝ) (iter : ℕ) (T : ℤ) (r : ℝ)
    (h : ((T : ℝ)) / 4 ≠ 0) :
    calculate_losses loss (some k) iter T r =
      some (loss +
        (if pymod (iter : ℝ) ((T : ℝ) / 4) / ((T : ℝ) / 4) ≤ r
         then 1 / (1 + Real.exp (-(pymod (iter : ℝ) ((T : ℝ) / 4) / ((T : ℝ) / 4))))
         else 1) * k, loss, k) := by
  simp only [calculate_losses]
  rw [if_neg h]

/-- C5: for every reconstruction loss, iteration and total step count
(and any anneal fraction), calling `calculate_losses` with a null KL term
(plain mode) returns total = reconstruction = the input loss and kl = 0. -/
theorem calculate_losses_plain_passthrough (loss : ℝ) (iter : ℕ) (T : ℤ) (r : ℝ) :
    calculate_losses loss none iter T r = some (loss, loss, 0) := rfl

/-- C2: in latent mode with total steps T > 0, `calculate_losses` returns
total = reconstruction + β · kld where, with cycle length C = T/4 and
phase t = (iter mod C)/C, β = 1/(1+exp(−t)) when t ≤ 1/2 and β = 1 when
t > 1/2; at every cycle boundary (iter mod C = 0) β = 1/2; and the
concrete instance loss 2.0, kld 1.0, iteration 0, total steps 4 yields the
triple (2.5, 2.0, 1.0). -/
theorem calculate_losses_latent_anneal (loss k : ℝ) (iter : ℕ) (T : ℤ) (hT : 0 < T) :
    (calculate_losses loss (some k) iter T (1/2) =
      some (loss +
        (if pymod (iter : ℝ) ((T : ℝ) / 4) / ((T : ℝ) / 4) ≤ 1/2
         then 1 / (1 + Real.exp (-(pymod (iter : ℝ) ((T : ℝ) / 4) / ((T : ℝ) / 4))))
         else 1) * k, loss, k)) ∧
    (pymod (iter : ℝ) ((T : ℝ) / 4) = 0 →
      calculate_losses loss (some k) iter T (1/2) = some (loss + (1/2) * k, loss, k)) ∧
    calculate_losses 2 (some 1) 0 4 (1/2) = some (5/2, 2, 1) := by
  have hC : ((T : ℝ)) / 4 ≠ 0 := by
    have : (T : ℝ) ≠ 0 := Int.cast_ne_zero.mpr hT.ne'
    positivity
  refine ⟨calculate_losses_some loss k iter T (1/2) hC, ?_, ?_⟩
  · intro hm
    rw [calculate_losses_some loss k iter T (1/2) hC, hm]
    norm_num [Real.exp_zero]
  · simp only [calculate_losses, pymod]
    norm_num [Real.exp_zero]

/-- Witness for C2 at the spec's end-to-end scenario: loss 2.0, kld 1.0,
iteration 0, total steps 4 (a cycle boundary), giving β = 1/2 and the
triple (2.5, 2.0, 1.0). -/
theorem calculate_losses_latent_anneal_witness :
    (0 : ℤ) < 4 ∧ calculate_losses 2 (some 1) 0 4 (1/2) = some (5/2, 2, 1) :=
  ⟨by norm_num, (calculate_losses_latent_anneal 2 1 0 4 (by norm_num)).2.2⟩

/-- C4: the configuration `total_training_steps = 0` is not rejected by
the CLI layer (argparse accepts any integer), and the failure only
surfaces inside `calculate_losses` in latent mode, where the cycle length
is zero and the Python modulo raises `ZeroDivisionError` (modelled as
`none`) — contradicting the claim that such a configuration raises a
ConfigurationError before training starts. -/
theorem total_steps_zero_not_rejected :
    total_training_steps_accepted 0 = true ∧
    calculate_losses 1 (some 1) 0 0 (1/2) = none := by
  refine ⟨rfl, ?_⟩
  simp only [calculate_losses]
  norm_num

/-- C1: with `num_warmup_steps = 0`, starting from the initial state,
after 2 training steps the flag is set and one fresh optimizer has been
constructed (the transition), but the 3rd step — where the mode is already
latent — performs the mode-set and constructs a fresh optimizer again
(2 resets in total), contradicting the claim that only the single first
transition resets the optimizer. -/
theorem training_reset_repeats :
    (run_steps 0 initState 2).optimizer_resets = 1 ∧
    (run_steps 0 initState 2).latent_transformer = true ∧
    (run_steps 0 initState 3).optimizer_resets = 2 ∧
    (run_steps 0 initState 3).latent_transformer = true := by
  decide

/-- Helper: a single training step never clears the latent flag. -/
lemma training_step_latent_mono (W : ℚ) (s : TrainState)
    (h : s.latent_transformer = true) :
    (training_step W s).latent_transformer = true := by
  simp only [training_step]
  split <;> simp [h]

/-- C8: the latent-mode flag is monotone along any run of training steps:
once it is true after `n` steps, it is still true after any `m ≥ n`
steps — the system never transitions back to plain mode. -/
theorem latent_flag_monotone (W : ℚ) (s : TrainState) (n m : ℕ) (hnm : n ≤ m)
    (h : (run_steps W s n).latent_transformer = true) :
    (run_steps W s m).latent_transformer = true := by
  induction m, hnm using Nat.le_induction with
  | base => exact h
  | succ m _ ih => exact training_step_latent_mono W _ ih

/-- Witness for C8: with warmup threshold 3, the flag is true after 5
steps from the initial state, hence still true after 7 steps. -/
theorem latent_flag_monotone_witness :
    (5 : ℕ) ≤ 7 ∧ (run_steps 3 initState 7).latent_transformer = true :=
  ⟨by decide, latent_flag_monotone 3 initState 5 7 (by decide) (by decide)⟩

/-- Helper: one accumulation step on a dict whose only entry is `k`
appends the new value. -/
lemma test_step_update_single (k : String) (l : List ℚ) (v : ℚ) :
    test_step_update [(k, l)] [(k, v)] = [(k, l ++ [v])] := by
  simp [test_step_update, dict_get, dict_set]

/-- Helper: once the key is registered with stored list `l`, folding the
remaining per-step values appends them all. -/
lemma test_steps_run_from (k : String) (vs : List ℚ) :
    ∀ l : List ℚ,
      vs.foldl (fun acc v => test_step_update acc [(k, v)]) [(k, l)] = [(k, l ++ vs)] := by
  induction vs with
  | nil => intro l; simp
  | cons v vs ih =>
    intro l
    simp only [List.foldl_cons, test_step_update_single, ih (l ++ [v]),
      List.append_assoc, List.singleton_append]

/-- C3: running the test-score accumulation from the empty dict over a
sequence of test steps each producing key `k`, the first step only
registers the key without storing its value and later steps append:
after the steps with values `vs`, the stored list is `vs.tail`, holding
`vs.length − 1` values (and the key is absent when no step occurred). -/
theorem test_scores_drop_first (k : String) (vs : List ℚ) :
    dict_get k (test_steps_run k vs) = (if vs = [] then none else some vs.tail) ∧
    (dict_get k (test_steps_run k vs)).map List.length =
      (if vs = [] then none else some (vs.length - 1)) := by
  cases vs with
  | nil => simp [test_steps_run, dict_get]
  | cons v vs =>
    have h0 : test_step_update [] [(k, v)] = [(k, [])] := by
      simp [test_step_update, dict_get, dict_set]
    have h1 : test_steps_run k (v :: vs) = [(k, vs)] := by
      simp only [test_steps_run, List.foldl_cons, h0]
      simpa using test_steps_run_from k vs []
    simp [h1, dict_get]

/-- C7: whatever values the preceding validation steps appended to the
three loss accumulators (starting from any prior state), after
`validation_epoch_end` all three accumulator lists are empty. -/
theorem val_losses_cleared_after_epoch_end (v0 : ValLosses) (steps : List (ℝ × ℝ × ℝ)) :
    (validation_epoch_end_losses
      (steps.foldl (fun v x => validation_step_losses v x.1 x.2.1 x.2.2) v0)).total_loss = [] ∧
    (validation_epoch_end_losses
      (steps.foldl (fun v x => validation_step_losses v x.1 x.2.1 x.2.2) v0)).rec_loss = [] ∧
    (validation_epoch_end_losses
      (steps.foldl (fun v x => validation_step_losses v x.1 x.2.1 x.2.2) v0)).kl_loss = [] :=
  ⟨rfl, rfl, rfl⟩

/-- C9: querying the best recorded score over an empty `(iteration,
value)` history fails with the Python `ValueError` (the spec's
EmptyHistoryError), propagated to the caller rather than returning a
default; with at least one observation the query succeeds. -/
theorem best_query_empty_fails :
    best_bleu_query [] = Except.error "ValueError: max() arg is an empty sequence" ∧
    ∀ l : List (ℕ × ℚ), l ≠ [] → ∃ p, best_bleu_query l = Except.ok p := by
  refine ⟨rfl, ?_⟩
  intro l hl
  cases l with
  | nil => exact absurd rfl hl
  | cons x xs => exact ⟨_, rfl⟩

/-- Witness for C9: a one-element history is nonempty and its query
succeeds. -/
theorem best_query_empty_fails_witness :
    ∃ p, best_bleu_query [(10, 5)] = Except.ok p :=
  best_query_empty_fails.2 [(10, 5)] (by decide)

/-- Helper: the decode loop from index `i` succeeds and applies
`filter_special_tokens` uniformly when `qs` and `ins` cover the remaining
sentences and every printed input filters to a nonempty token list. -/
lemma decode_loop_aux_ok (st : List String) ( sep : String) (pl : ℕ)
    (qs ins : List String) :
    ∀ (sents : List String) (i : ℕ) (preds gts printed : List String),
      qs.length = i + sents.length →
      ins.length = i + sents.length →
      (∀ j, j < ins.length → j < pl →
        pySplit (filter_special_tokens st sep (ins.getD j "")) ≠ []) →
      decode_loop_aux st sep pl qs ins i (preds, gts, printed) sents =
        Except.ok (preds ++ sents.map (filter_special_tokens st sep),
                   gts ++ (qs.drop i).map (filter_special_tokens st sep),
                   printed ++ ((ins.drop i).take (pl - i)).map (filter_special_tokens st sep)) := by
  intro sents
  induction sents with
  | nil =>
    intro i preds gts printed hq hi hp
    simp only [List.length_nil, Nat.add_zero] at hq hi
    have hq2 : qs.drop i = [] := List.drop_eq_nil_of_le (by omega)
    have hi2 : ins.drop i = [] := List.drop_eq_nil_of_le (by omega)
    simp [decode_loop_aux, hq2, hi2]
  | cons sentence rest ih =>
    intro i preds gts printed hq hi hp
    simp only [List.length_cons] at hq hi
    have hilt : i < ins.length := by omega
    have hqlt : i < qs.length := by omega
    have h1 : ins[i]? = some ins[i] := List.getElem?_eq_getElem hilt
    have h2 : qs[i]? = some qs[i] := List.getElem?_eq_getElem hqlt
    have hdq : qs.drop i = qs[i] :: qs.drop (i + 1) := List.drop_eq_getElem_cons hqlt
    have hdi : ins.drop i = ins[i] :: ins.drop (i + 1) := List.drop_eq_getElem_cons hilt
    simp only [decode_loop_aux, h1, h2]
    by_cases hpl : i < pl
    · have hne : pySplit (filter_special_tokens st sep ins[i]) ≠ [] := by
        have := hp i hilt hpl
        rwa [List.getD_eq_getElem?_getD, List.getElem?_eq_getElem hilt] at this
      rw [if_pos hpl]
      rcases hsp : pySplit (filter_special_tokens st sep ins[i]) with _ | ⟨c, cs⟩
      · exact absurd hsp hne
      · simp only [hsp]
        rw [ih (i + 1) _ _ _ (by omega) (by omega) hp]
        have htk : pl - i = (pl - (i + 1)) + 1 := by omega
        rw [hdq, hdi, htk]
        simp only [List.map_cons, List.take_succ_cons, List.append_assoc,
          List.singleton_append]
    · rw [if_neg hpl]
      rw [ih (i + 1) _ _ _ (by omega) (by omega) hp]
      have h3 : pl - i = 0 := by omega
      have h4 : pl - (i + 1) = 0 := by omega
      rw [hdq, h3, h4]
      simp only [List.map_cons, List.take_zero, List.map_nil, List.append_nil,
        List.append_assoc, List.singleton_append]

/-- C6: the decode loop applies the one function `filter_special_tokens`
(truncate at the first separator occurrence, then drop the remaining
special tokens) identically to the generated hypotheses, the ground-truth
reference questions, and the printed keyword inputs; and on the concrete
string from the spec, "[CLS] cat dog [SEP] extra" with separator "[SEP]"
filters to "cat dog". -/
theorem filter_applied_symmetrically (st : List String) ( sep : String) (pl : ℕ)
    (qs ins sents : List String)
    (hq : qs.length = sents.length) (hi : ins.length = sents.length)
    (hp : ∀ j, j < ins.length → j < pl →
      pySplit (filter_special_tokens st sep (ins.getD j "")) ≠ []) :
    decode_loop st sep pl qs ins sents =
      Except.ok (sents.map (filter_special_tokens st sep),
                 qs.map (filter_special_tokens st sep),
                 (ins.take pl).map (filter_special_tokens st sep)) ∧
    filter_special_tokens ["[CLS]", "[SEP]", "[PAD]", "[MASK]", "[UNK]"] "[SEP]"
      "[CLS] cat dog [SEP] extra" = "cat dog" := by
  constructor
  · have h := decode_loop_aux_ok st sep pl qs ins sents 0 [] [] []
      (by omega) (by omega) hp
    simpa [decode_loop] using h
  · decide

/-- Witness for C6 on a one-example batch: the hypothesis, reference and
keyword input are all filtered by the same function. -/
theorem filter_applied_symmetrically_witness :
    decode_loop ["[CLS]", "[SEP]"] "[SEP]" 20 ["[CLS] what is this [SEP]"]
        ["[CLS] animal cat [SEP]"] ["what is it"] =
      Except.ok (["what is it"], ["what is this"], ["animal cat"]) ∧
    filter_special_tokens ["[CLS]", "[SEP]", "[PAD]", "[MASK]", "[UNK]"] "[SEP]"
      "[CLS] cat dog [SEP] extra" = "cat dog" := by
  have h := filter_applied_symmetrically ["[CLS]", "[SEP]"] "[SEP]" 20
    ["[CLS] what is this [SEP]"] ["[CLS] animal cat [SEP]"] ["what is it"]
    (by decide) (by decide) (by decide)
  exact ⟨by rw [h.1]; rfl, h.2⟩

/-- C10: the decode loop has an unstated precondition: an input that
decodes to only special/separator tokens (so its filtered form is the
empty string, whose token list is empty) makes the loop fail with an
IndexError at the category extraction `curr_input.split()[0]` instead of
producing scores; when every printed input filters to a nonempty token
list (and the reference/input lists cover the batch), the loop succeeds. -/
theorem decode_print_requires_nonempty_input :
    decode_loop ["[CLS]", "[SEP]"] "[SEP]" 20 ["[CLS] what is this [SEP]"]
        ["[CLS] [SEP]"] ["what is it"] =
      Except.error "IndexError: list index out of range" ∧
    ∀ (st : List String) ( sep : String) (pl : ℕ) (qs ins sents : List String),
      qs.length = sents.length → ins.length = sents.length →
      (∀ j, j < ins.length → j < pl →
        pySplit (filter_special_tokens st sep (ins.getD j "")) ≠ []) →
      ∃ out, decode_loop st sep pl qs ins sents = Except.ok out := by
  constructor
  · rfl
  · intro st sep pl qs ins sents hq hi hp
    have h := decode_loop_aux_ok st sep pl qs ins sents 0 [] [] []
      (by omega) (by omega) hp
    exact ⟨_, by simpa [decode_loop] using h⟩

/-- Witness for C10: a two-example batch whose inputs filter to nonempty
strings decodes without error. -/
theorem decode_print_requires_nonempty_input_witness :
    ∃ out, decode_loop ["[CLS]", "[SEP]", "[PAD]"] "[SEP]" 2
        ["[CLS] where is the cat [SEP]", "[CLS] what color [SEP]"]
        ["[CLS] location cat [SEP]", "[CLS] color [SEP]"]
        ["where is it", "what color is it"] = Except.ok out :=
  decode_print_requires_nonempty_input.2 _ _ _ _ _ _ (by decide) (by decide) (by decide)

end VQG
